import Mathlib

/-!
# Verification of the TypeScript-on-the-Browser-Starter domain and build configuration

Shallow embedding of the repository's domain classes (ProductLib: Price,
PhoneNumber, Product, Catalog, Order) and of its webpack build configuration
(environment branching and the splitChunks cacheGroups path rules), together
with proofs settling the specification claims.

JavaScript numbers are embedded as `Rat` (every value appearing in the
repository is exact decimal arithmetic on small values), strings as `String`
or `List Char`, thrown exceptions as `Except String`.
-/

namespace TsStarter

/-! ## Numeric helpers: JS `Math.round` and `Number(string)` -/

/-- JS `Math.round`: rounds half toward positive infinity, i.e.
`Math.round(q) = ⌊q + 1/2⌋` (stated as `jsRound_spec` below); written out on
numerator and denominator so that the kernel can evaluate it. -/
def jsRound (q : Rat) : Rat :=
  ((Rat.floor (Rat.divInt (2 * q.num + q.den) (2 * q.den)) : ℤ) : Rat)

/-- JS whitespace as stripped by `String.prototype.trim` / `ToNumber`
(restricted to the ASCII whitespace actually relevant here). -/
def jsWhite (c : Char) : Bool := c = ' ' || c = '\t' || c = '\n' || c = '\r'

/-- Trim JS whitespace from both ends of a character list. -/
def trimChars (s : List Char) : List Char :=
  ((s.dropWhile jsWhite).reverse.dropWhile jsWhite).reverse

/-- JS `String.prototype.trim`. -/
def jsTrim (s : String) : String := String.mk (trimChars s.data)

def digitsNonempty (s : List Char) : Bool := !s.isEmpty && s.all (·.isDigit)

def isHexDig (c : Char) : Bool := c.isDigit || ('a' ≤ c && c ≤ 'f') || ('A' ≤ c && c ≤ 'F')

def isOctDig (c : Char) : Bool := '0' ≤ c && c ≤ '7'

def isBinDig (c : Char) : Bool := c = '0' || c = '1'

/-- Exponent-sign-and-digits part of a decimal literal. -/
def signedDigits : List Char → Bool
  | '+' :: r => digitsNonempty r
  | '-' :: r => digitsNonempty r
  | r => digitsNonempty r

/-- Optional exponent part (`e`/`E` then signed digits) of a decimal literal. -/
def expPart : List Char → Bool
  | [] => true
  | 'e' :: r => signedDigits r
  | 'E' :: r => signedDigits r
  | _ => false

/-- Unsigned ECMAScript DecimalLiteral:
`Digits ('.' Digits?)? Exponent?` or `'.' Digits Exponent?`. -/
def unsignedDecimal (s : List Char) : Bool :=
  let d1 := s.takeWhile (·.isDigit)
  let r1 := s.dropWhile (·.isDigit)
  if d1.isEmpty then
    match r1 with
    | '.' :: r2 =>
        !(r2.takeWhile (·.isDigit)).isEmpty && expPart (r2.dropWhile (·.isDigit))
    | _ => false
  else
    match r1 with
    | [] => true
    | '.' :: r2 => expPart (r2.dropWhile (·.isDigit))
    | r => expPart r

def infinityOrDecimal (r : List Char) : Bool :=
  r = "Infinity".data || unsignedDecimal r

/-- Optionally signed decimal literal or `Infinity`. -/
def strDecimal : List Char → Bool
  | '+' :: r => infinityOrDecimal r
  | '-' :: r => infinityOrDecimal r
  | r => infinityOrDecimal r

/-- Unsigned non-decimal integer literals `0x… 0o… 0b…`. -/
def nonDecimal : List Char → Bool
  | '0' :: 'x' :: r => !r.isEmpty && r.all isHexDig
  | '0' :: 'X' :: r => !r.isEmpty && r.all isHexDig
  | '0' :: 'o' :: r => !r.isEmpty && r.all isOctDig
  | '0' :: 'O' :: r => !r.isEmpty && r.all isOctDig
  | '0' :: 'b' :: r => !r.isEmpty && r.all isBinDig
  | '0' :: 'B' :: r => !r.isEmpty && r.all isBinDig
  | _ => false

/-- Modelled from the ECMAScript `ToNumber(string)` specification (a platform
builtin, no source in this repository): `Number(s)` is a non-NaN number exactly
when the trimmed string is empty (giving `0`) or is a StrNumericLiteral. -/
def jsNumericString (s : String) : Bool :=
  let t := trimChars s.data
  t.isEmpty || strDecimal t || nonDecimal t

/-- `isNaN(Number(s))` as used by the PhoneNumber constructor. -/
def jsIsNaNOfString (s : String) : Bool := !jsNumericString s

/-! ## Domain model: CompanyLib and ProductLib -/

/-- Modelled from the spec: `Person` ("identifier (unique, assigned by caller)
+ display name"); `CompanyLib/Person.ts` is not among the provided sources. -/
structure Person where
  id : Nat
  name : String
deriving DecidableEq

/-- `CompanyLib/Organization.ts`: a name plus a set of employees. -/
structure Organization where
  name : String
  employees : List Person
deriving DecidableEq

def Organization.toStr (o : Organization) : String := o.name

/-- Modelled from the spec: the ProductLib currency enum
(`ProductLib/Currency.ts` is not among the provided sources; the spec calls it
"a currency enum"; `main.ts` uses `Currency.USD`). -/
inductive Currency where
  | USD
  | INR
  | EUR
  | GBP
deriving DecidableEq

def Currency.toStr : Currency → String
  | .USD => "USD"
  | .INR => "INR"
  | .EUR => "EUR"
  | .GBP => "GBP"

/-- `ProductLib/Price.ts` record: a numeric value and a currency. -/
structure Price where
  value : Rat
  currency : Currency
deriving DecidableEq

def Price.getValue (p : Price) : Rat := p.value

def Price.getCurrency (p : Price) : Currency := p.currency

/-- `ProductLib/Price.ts` constructor: throws `EvalError` when `value <= 0`. -/
def Price.make (value : Rat) (currency : Currency) : Except String Price :=
  if value ≤ 0 then
    Except.error "Argument value cannot be less than zero"
  else
    Except.ok ⟨value, currency⟩

/-- `ProductLib/PhoneNumber.ts` record (fields after construction). -/
structure PhoneNumber where
  countrycode : String
  phoneNumberString : String
deriving DecidableEq

/-- `ProductLib/PhoneNumber.ts` constructor: trims the country code, throws if
it is empty, throws if `isNaN(Number(phoneNumberString))`, then trims the
subscriber string. -/
def PhoneNumber.make (countrycode phoneNumberString : String) :
    Except String PhoneNumber :=
  let cc := jsTrim countrycode
  if cc.data.isEmpty then
    Except.error "countryCode cannot be an empty string"
  else if jsIsNaNOfString phoneNumberString then
    Except.error "phoneNumberString must be a valid number as well"
  else
    Except.ok ⟨cc, jsTrim phoneNumberString⟩

/-- `ProductLib/Product.ts`: the Product data (the TS class hierarchy
TShirt/MobilePhone only adds extra payload fields, which no claim concerns;
`productId` is assigned from the static `numProductsSoFar` counter, modelled
by passing the assigned value explicitly). -/
structure Product where
  productId : Nat
  productName : String
  manufacturer : Organization
  price : Price
deriving DecidableEq

def Product.getProductId (p : Product) : Nat := p.productId

def Product.getValue (p : Product) : Rat := p.price.getValue

def Product.getCurrency (p : Product) : Currency := p.price.getCurrency

def Product.toStr (p : Product) : String :=
  "(" ++ toString p.productId ++ ") " ++ p.productName ++ ", by " ++
    p.manufacturer.toStr ++ ". Price: " ++ p.price.getCurrency.toStr ++ " " ++
    toString p.price.getValue.num

/-- `typescript-collections` `Set.add`, keyed on the element's `toString`. -/
def setAdd (l : List Product) (p : Product) : List Product :=
  if l.any (fun q => q.toStr == p.toStr) then l else l ++ [p]

/-- `ProductLib/Catalog.ts`: a name plus a set of products (the list holds the
set's iteration order). -/
structure Catalog where
  catalogName : String
  productsList : List Product
deriving DecidableEq

/-- `Catalog.addProduct`: ignores `null`, otherwise adds to the set. -/
def Catalog.addProduct (c : Catalog) (product : Option Product) :
    Catalog × Bool :=
  match product with
  | some p => ({ c with productsList := setAdd c.productsList p }, true)
  | none => (c, false)

/-- `Catalog.selectProductFromCatalog`: iterates the set, remembers the first
product whose id equals the argument and stops there (`return false` aborts
the `forEach`), returning `undefined` when nothing matched. -/
def Catalog.selectProductFromCatalog (c : Catalog) (productId : Nat) :
    Option Product :=
  c.productsList.find? (fun p => p.getProductId == productId)

/-- `ProductLib/Order.ts` `OrderItem`: the stored line item (its constructor
throws `TypeError` on non-integer quantity; that check lives in
`Order.addItem` below, which is the only construction site). -/
structure OrderItem where
  product : Product
  quantity : Rat
deriving DecidableEq

def OrderItem.getItemTotal (it : OrderItem) : Rat :=
  it.product.getValue * it.quantity

/-- `ProductLib/Order.ts` `Order` state (`orderId` is assigned from the
randomly seeded static counter, modelled by passing the assigned value
explicitly; `none` is the `undefined` of the `orderTotal` field). -/
structure Order where
  orderId : Nat
  items : List OrderItem
  completed : Bool
  orderTotal : Option Rat
deriving DecidableEq

/-- `Order` constructor. -/
def Order.new (orderId : Nat) : Order := ⟨orderId, [], false, none⟩

def Order.isCompleted (o : Order) : Bool := o.completed

/-- `Order.addItem`: on a completed order it throws `ReferenceError` (state
untouched); otherwise it pushes `new OrderItem(product, quantity)`, catching
the constructor's `TypeError` for non-integer quantity and converting it to a
`false` result (state untouched). -/
def Order.addItem (o : Order) (product : Product) (quantity : Rat) :
    Order × Except String Bool :=
  if !o.isCompleted then
    if quantity ≠ jsRound quantity then
      (o, Except.ok false)
    else
      ({ o with items := o.items ++ [⟨product, quantity⟩] }, Except.ok true)
  else
    (o, Except.error "Cannot add items to an order which already completed.")

/-- `Order.getOrderTotal`: when `orderTotal` is still `undefined`, fold the
item totals and cache the result; always return the cached field. -/
def Order.getOrderTotal (o : Order) : Order × Rat :=
  match o.orderTotal with
  | some t => (o, t)
  | none =>
      let val := o.items.foldl (fun acc item => acc + item.getItemTotal) 0
      ({ o with orderTotal := some val }, val)

/-- `Order.purchase`: mark completed, then force the total computation. -/
def Order.purchase (o : Order) : Order :=
  (Order.getOrderTotal { o with completed := true }).1

/-- The client-visible Order operations, for reachability statements. -/
inductive OrderOp where
  | addItem (product : Product) (quantity : Rat)
  | getTotal
  | purchase

/-- One Order operation, projected on the order state (a thrown
`ReferenceError` leaves the state unchanged). -/
def Order.step (o : Order) : OrderOp → Order
  | .addItem p q => (o.addItem p q).1
  | .getTotal => o.getOrderTotal.1
  | .purchase => o.purchase

/-- A sequence of Order operations. -/
def Order.run (o : Order) (ops : List OrderOp) : Order :=
  ops.foldl Order.step o

/-- The specification formula for an order total: the sum of
(unit price × quantity) over the line items. -/
def lineItemsTotal (items : List OrderItem) : Rat :=
  (items.map OrderItem.getItemTotal).sum

/-! ## Webpack configuration: regex rules and environment branching

The `webpack.config.js` cacheGroups `test` fields are JS `RegExp`s built with
`path.sep`; they are embedded here for the POSIX separator `'/'`.  A `RegExp`
is an abstract syntax tree; `RegExp.prototype.test` holds when some substring
of the input is in the regex's language (an unanchored search). -/

/-- Regex AST: the constructs used by webpack.config.js
(`emp`/`eps` are the empty language and the empty word, `ch` a literal
character, `dot` is `.` , `nsep` the class `[^\/]`). -/
inductive RE where
  | emp
  | eps
  | ch (c : Char)
  | dot
  | nsep
  | seq (a b : RE)
  | star (a : RE)
deriving DecidableEq

/-- `r+` is `r` then `r*`. -/
def RE.rplus (a : RE) : RE := .seq a (.star a)

/-- The word `s` is in the language of `r`. -/
def RE.Matches : RE → List Char → Prop
  | .emp, _ => False
  | .eps, s => s = []
  | .ch c, s => s = [c]
  | .dot, s => ∃ c, s = [c]
  | .nsep, s => ∃ c, c ≠ '/' ∧ s = [c]
  | .seq a b, s => ∃ u v, s = u ++ v ∧ a.Matches u ∧ b.Matches v
  | .star a, s => ∃ L : List (List Char), (∀ u ∈ L, a.Matches u) ∧ s = L.flatten

/-- `RegExp.prototype.test`: an unanchored search for a match. -/
def RE.test (r : RE) (s : List Char) : Prop :=
  ∃ u v w, s = u ++ v ++ w ∧ r.Matches v

/-- The characters of a string literal. -/
def strL (s : String) : List Char := s.data

/-- A sequence of literal characters. -/
def strRE : List Char → RE
  | [] => .eps
  | c :: cs => .seq (.ch c) (strRE cs)

/-- The common `.*.ts` tail of the directory cacheGroups rules. -/
def reDirTail : RE := .seq (.star .dot) (.seq .dot (strRE (strL "ts")))

/-- cacheGroups.AnimalLib.test: `AnimalLib\/([^\/]+.ts)`. -/
def reAnimalLib : RE :=
  .seq (strRE (strL "AnimalLib/")) (.seq (RE.rplus .nsep) (.seq .dot (strRE (strL "ts"))))

/-- cacheGroups.Mammals.test: `AnimalLib\/Mammals\/.*.ts`. -/
def reMammals : RE := .seq (strRE (strL "AnimalLib/Mammals/")) reDirTail

/-- cacheGroups.Reptiles.test: `AnimalLib\/Reptiles\/.*.ts`. -/
def reReptiles : RE := .seq (strRE (strL "AnimalLib/Reptiles/")) reDirTail

/-- cacheGroups.Birds.test: `AnimalLib\/Birds\/.*.ts`. -/
def reBirds : RE := .seq (strRE (strL "AnimalLib/Birds/")) reDirTail

/-- cacheGroups.CompanyLib.test: `CompanyLib\/.*.ts`. -/
def reCompanyLib : RE := .seq (strRE (strL "CompanyLib/")) reDirTail

/-- cacheGroups.ProductLib.test: `ProductLib\/.*.ts`. -/
def reProductLib : RE := .seq (strRE (strL "ProductLib/")) reDirTail

/-- cacheGroups.jquery.test: `node_modules\/jquery.*`. -/
def reJquery : RE := .seq (strRE (strL "node_modules/jquery")) (.star .dot)

/-- cacheGroups.typescript_collections.test:
`node_modules\/typescript-collections.*`. -/
def reTsCollections : RE :=
  .seq (strRE (strL "node_modules/typescript-collections")) (.star .dot)

/-- The splitChunks cacheGroups of webpack.config.js, as the ordered list of
(chunk `name`, path `test`) pairs, in configuration order. -/
def cacheGroups : List (String × RE) :=
  [("AnimalLib", reAnimalLib),
   ("AnimalLib-Mammals", reMammals),
   ("AnimalLib-Reptiles", reReptiles),
   ("AnimalLib-Birds", reBirds),
   ("CompanyLib", reCompanyLib),
   ("ProductLib", reProductLib),
   ("jquery", reJquery),
   ("typescript_collections", reTsCollections)]

/-- First-match-wins selection among an ordered rule list: the path is
assigned the name of the first rule whose test matches. -/
inductive FirstMatch (path : List Char) : List (String × RE) → String → Prop
  | head {g : String × RE} {gs : List (String × RE)} :
      RE.test g.2 path → FirstMatch path (g :: gs) g.1
  | tail {g : String × RE} {gs : List (String × RE)} {n : String} :
      ¬ RE.test g.2 path → FirstMatch path gs n → FirstMatch path (g :: gs) n

/-- The chunk assigned to a module path by the cacheGroups rules. -/
def AssignedChunk (path : List Char) (name : String) : Prop :=
  FirstMatch path cacheGroups name

/-- The `--env` argument of the webpack CLI as seen by the configuration
function: absent (`undefined`), a plain string, or an options object whose
relevant boolean fields are those the function consults. -/
inductive Env where
  | undef
  | str (s : String)
  | flags (dev devo development prod production : Bool)
deriving DecidableEq

/-- The development-recognition condition of webpack.config.js:
`env === 'dev' || env.dev === true || env === 'devo' || env.devo === true ||
env === 'development' || env.development === true`. -/
def isDevEnv : Env → Bool
  | .undef => false
  | .str s => s == "dev" || s == "devo" || s == "development"
  | .flags dev devo development _ _ => dev || devo || development

/-- The production-recognition condition of webpack.config.js:
`env === 'prod' || env.prod === true || env === 'production' ||
env.production === true`. -/
def isProdEnv : Env → Bool
  | .undef => false
  | .str s => s == "prod" || s == "production"
  | .flags _ _ _ prod production => prod || production

/-- The parts of the returned webpack configuration object that the claims
concern: the entry map, the chunk rules, the `devtool` setting (absent by
default) and `optimization.minimize` (absent by default, so minification is
not disabled). -/
structure WebpackConfig where
  entry : List (String × String)
  chunkRules : List (String × RE)
  devtool : Option String
  minimize : Option Bool
  outputFilename : String
deriving DecidableEq

/-- The `config` object literal of webpack.config.js before the env branch
runs. -/
def baseConfig : WebpackConfig :=
  { entry := [("main", "./src/main.ts"), ("main2", "./src/main2.ts"),
              ("main3", "./src/main3.ts")],
    chunkRules := cacheGroups,
    devtool := none,
    minimize := none,
    outputFilename := "[name].bundle.js" }

/-- `module.exports = function(env, argv)` of webpack.config.js: throws when
`env` is undefined, applies the development overrides when the development
condition holds, returns the base config when the production condition holds,
and throws otherwise. -/
def webpackConfig (env : Env) : Except String WebpackConfig :=
  if env = .undef then
    Except.error "ERROR: No environment option specified!"
  else if isDevEnv env then
    Except.ok { baseConfig with devtool := some "inline-source-map",
                                minimize := some false }
  else if isProdEnv env then
    Except.ok baseConfig
  else
    Except.error "ERROR: Invalid environment option specified!"

/-! ## Auxiliary definitions for the proofs -/

/-- `leadMatch p s` holds when `p` is an initial run of `s`. -/
def leadMatch (p s : List Char) : Bool := decide (s.take p.length = p)

/-- `tailMatch p s` holds when `p` is a final run of `s`. -/
def tailMatch (p s : List Char) : Bool :=
  decide (s.drop (s.length - p.length) = p)

/-- `hasSub p s` holds when `p` occurs contiguously inside `s`. -/
def hasSub (p : List Char) : List Char → Bool
  | [] => leadMatch p []
  | s@(_ :: rest) => leadMatch p s || hasSub p rest

/-- Join slash-free segments with `'/'` separators. -/
def joinSegs : List (List Char) → List Char
  | [] => []
  | [a] => a
  | a :: b :: rest => a ++ '/' :: joinSegs (b :: rest)

/-- Some occurrence of `p` in `s` is followed immediately by a `'/'`. -/
def PreSlash (p s : List Char) : Prop := ∃ u v, s = u ++ p ++ '/' :: v

/-- A sample manufacturer (from `main.ts`). -/
def ralphLauren : Organization := ⟨"Ralph Lauren", []⟩

/-- A sample product (from `main.ts`). -/
def poloShirtL : Product := ⟨1, "Polo Shirt L", ralphLauren, ⟨10, Currency.USD⟩⟩

/-- A second sample product (from `main.ts`). -/
def poloShirtS : Product := ⟨3, "Polo Shirt S", ralphLauren, ⟨5, Currency.USD⟩⟩

/-- A sample catalog holding the two sample products. -/
def sampleCatalog : Catalog := ⟨"Ralph Lauren sportswear", [poloShirtL, poloShirtS]⟩

/-! ## General lemmas -/

/-- `jsRound` computes `⌊q + 1/2⌋`, JS `Math.round` on exact rationals. -/
theorem jsRound_spec (q : Rat) : jsRound q = ((⌊q + 1/2⌋ : ℤ) : Rat) := by
  have hden : (q.den : ℚ) ≠ 0 := by exact_mod_cast q.den_ne_zero
  have hnum : (q.num : ℚ) = q * q.den := (div_eq_iff hden).mp (Rat.num_div_den q)
  have h1 : Rat.divInt (2 * q.num + q.den) (2 * q.den) = q + 1/2 := by
    rw [Rat.divInt_eq_div]
    push_cast
    rw [hnum]
    field_simp
    linear_combination 4 * hnum
  have h2 : Rat.floor (q + 1/2) = ⌊q + 1/2⌋ := by
    rw [Rat.floor_def, Rat.floor_def']
  rw [jsRound, h1, h2]

/-- A rational is an integer iff it is fixed by `Math.round`. -/
theorem jsRound_eq_self_iff (q : Rat) : jsRound q = q ↔ ∃ z : ℤ, q = (z : Rat) := by
  rw [jsRound_spec]
  constructor
  · intro h
    exact ⟨⌊q + 1/2⌋, h.symm⟩
  · rintro ⟨z, rfl⟩
    have h1 : ⌊(z : Rat) + 1/2⌋ = z + ⌊(1/2 : Rat)⌋ := Int.floor_int_add z (1/2)
    have h2 : ⌊(1/2 : Rat)⌋ = 0 := by norm_num
    rw [h1, h2, add_zero]

/-- First-match-wins selection is deterministic. -/
theorem FirstMatch.unique {path : List Char} {gs : List (String × RE)}
    {n n' : String} (h : FirstMatch path gs n) (h' : FirstMatch path gs n') :
    n = n' := by
  induction h with
  | head ht =>
      cases h' with
      | head ht' => rfl
      | tail hn _ => exact absurd ht hn
  | tail hn _ ih =>
      cases h' with
      | head ht' => exact absurd ht' hn
      | tail hn' hrest => exact ih hrest

/-- Folding item totals from an accumulator adds the mapped sum. -/
theorem foldl_itemTotal (items : List OrderItem) (a : Rat) :
    items.foldl (fun acc item => acc + item.getItemTotal) a
      = a + lineItemsTotal items := by
  induction items generalizing a with
  | nil => simp [lineItemsTotal]
  | cons it rest ih => simp [lineItemsTotal, ih, add_assoc]

/-- Every Order operation leaves an already-cached total untouched. -/
theorem step_preserves_total {o : Order} {t : Rat}
    (h : o.orderTotal = some t) (op : OrderOp) :
    (o.step op).orderTotal = some t := by
  cases op with
  | addItem p q =>
      simp only [Order.step, Order.addItem]
      split <;> (try split) <;> simpa using h
  | getTotal =>
      simp only [Order.step, Order.getOrderTotal, h]
  | purchase =>
      simp only [Order.step, Order.purchase, Order.getOrderTotal, h]

/-- Runs of Order operations leave an already-cached total untouched. -/
theorem run_preserves_total {o : Order} {t : Rat}
    (h : o.orderTotal = some t) (ops : List OrderOp) :
    ((o.run ops)).orderTotal = some t := by
  induction ops generalizing o with
  | nil => simpa [Order.run] using h
  | cons op rest ih =>
      have h1 := step_preserves_total h op
      simpa [Order.run, List.foldl_cons] using ih h1

/-- `find?` returns the unique element satisfying the id test. -/
theorem find_first_unique (l : List Product) (pid : Nat) (p : Product)
    (hp : p ∈ l) (hpid : p.getProductId = pid)
    (huniq : ∀ q ∈ l, q.getProductId = pid → q = p) :
    l.find? (fun x => x.getProductId == pid) = some p := by
  induction l with
  | nil => cases hp
  | cons a rest ih =>
      by_cases ha : a.getProductId = pid
      · have hap : a = p := huniq a (List.mem_cons_self a rest) ha
        subst hap
        simp [List.find?, ha]
      · have hane : (a.getProductId == pid) = false := by
          simpa using ha
        have hp' : p ∈ rest := by
          rcases List.mem_cons.mp hp with h | h
          · exact absurd (h ▸ hpid) ha
          · exact h
        rw [List.find?, hane]
        exact ih hp' (fun q hq hqid => huniq q (List.mem_cons_of_mem a hq) hqid)

/-- `getOrderTotal` never changes the stored line items. -/
theorem getOrderTotal_items (o : Order) : o.getOrderTotal.1.items = o.items := by
  rcases h : o.orderTotal with _ | t <;> simp [Order.getOrderTotal, h]

/-- `purchase` never changes the stored line items. -/
theorem purchase_items (o : Order) : o.purchase.items = o.items := by
  have := getOrderTotal_items { o with completed := true }
  simpa [Order.purchase] using this

/-! ## Regex language lemmas -/

/-- A literal-string regex matches exactly that string. -/
theorem strRE_matches (l : List Char) :
    ∀ s : List Char, (strRE l).Matches s ↔ s = l := by
  induction l with
  | nil =>
      intro s
      simp [strRE, RE.Matches]
  | cons c cs ih =>
      intro s
      constructor
      · rintro ⟨u, v, rfl, hu, hv⟩
        rw [show u = [c] from hu, (ih v).mp hv]
        rfl
      · rintro rfl
        exact ⟨[c], cs, rfl, rfl, (ih cs).mpr rfl⟩

/-- `.*` matches every string. -/
theorem starDot_matches : ∀ s : List Char, (RE.star RE.dot).Matches s
  | [] => ⟨[], by simp, by simp⟩
  | c :: cs => by
      rcases starDot_matches cs with ⟨L, hL, hs⟩
      refine ⟨[c] :: L, ?_, by simp [← hs]⟩
      intro u hu
      rcases List.mem_cons.mp hu with rfl | hu
      · exact ⟨c, rfl⟩
      · exact hL u hu

/-- `[^\/]*` matches every slash-free string. -/
theorem starNsep_matches_of :
    ∀ s : List Char, (∀ c ∈ s, c ≠ '/') → (RE.star RE.nsep).Matches s
  | [], _ => ⟨[], by simp, by simp⟩
  | c :: cs, h => by
      rcases starNsep_matches_of cs
        (fun d hd => h d (List.mem_cons_of_mem c hd)) with ⟨L, hL, hs⟩
      refine ⟨[c] :: L, ?_, by simp [← hs]⟩
      intro u hu
      rcases List.mem_cons.mp hu with rfl | hu
      · exact ⟨c, h c (List.mem_cons_self c cs), rfl⟩
      · exact hL u hu

/-- What `[^\/]*` matches is slash-free. -/
theorem starNsep_matches_slashfree {s : List Char}
    (h : (RE.star RE.nsep).Matches s) : ∀ c ∈ s, c ≠ '/' := by
  rcases h with ⟨L, hL, rfl⟩
  intro c hc
  rcases List.mem_flatten.mp hc with ⟨u, hu, hcu⟩
  rcases hL u hu with ⟨d, hd, rfl⟩
  rcases List.mem_singleton.mp hcu with rfl
  exact hd

/-- `[^\/]+` matches exactly the non-empty slash-free strings. -/
theorem rplusNsep_matches_iff (s : List Char) :
    (RE.rplus RE.nsep).Matches s ↔ s ≠ [] ∧ ∀ c ∈ s, c ≠ '/' := by
  constructor
  · rintro ⟨u, v, rfl, hu, hv⟩
    rcases hu with ⟨d, hd, rfl⟩
    refine ⟨by simp, ?_⟩
    intro c hc
    rcases List.mem_cons.mp (by simpa using hc) with rfl | hc
    · exact hd
    · exact starNsep_matches_slashfree hv c hc
  · rintro ⟨hne, h⟩
    rcases s with _ | ⟨c, cs⟩
    · exact absurd rfl hne
    · refine ⟨[c], cs, rfl, ⟨c, h c (List.mem_cons_self c cs), rfl⟩, ?_⟩
      exact starNsep_matches_of cs (fun d hd => h d (List.mem_cons_of_mem c hd))

/-- Characterization of the AnimalLib rule's test: some occurrence of
`AnimalLib/` is followed by a non-empty slash-free run, one further character,
and the literal `ts`. -/
theorem testA_iff (s : List Char) :
    reAnimalLib.test s
      ↔ ∃ u x c v, s = u ++ strL "AnimalLib/" ++ x ++ c :: 't' :: 's' :: v
          ∧ x ≠ [] ∧ ∀ e ∈ x, e ≠ '/' := by
  constructor
  · rintro ⟨u, v, w, rfl, hm⟩
    rcases hm with ⟨v1, v2, rfl, hv1, hv2⟩
    rcases hv2 with ⟨x, v3, rfl, hx, hv3⟩
    rcases hv3 with ⟨d, v4, rfl, hd, hv4⟩
    rcases hd with ⟨c, rfl⟩
    rw [(strRE_matches _ _).mp hv1, (strRE_matches _ _).mp hv4]
    rcases (rplusNsep_matches_iff x).mp hx with ⟨hxne, hxsf⟩
    refine ⟨u, x, c, w, ?_, hxne, hxsf⟩
    simp [strL, List.append_assoc]
  · rintro ⟨u, x, c, v, rfl, hxne, hxsf⟩
    refine ⟨u, strL "AnimalLib/" ++ x ++ [c] ++ strL "ts", v, ?_, ?_⟩
    · simp [strL, List.append_assoc]
    · refine ⟨strL "AnimalLib/", x ++ [c] ++ strL "ts", by simp [List.append_assoc],
        (strRE_matches _ _).mpr rfl, ?_⟩
      refine ⟨x, [c] ++ strL "ts", by simp [List.append_assoc],
        (rplusNsep_matches_iff x).mpr ⟨hxne, hxsf⟩, ?_⟩
      exact ⟨[c], strL "ts", rfl, ⟨c, rfl⟩, (strRE_matches _ _).mpr rfl⟩

/-- Characterization of a `pat` + `.*.ts` rule's test: some occurrence of
`pat` is followed, at distance at least one, by the literal `ts`. -/
theorem testDirTail_iff (pat : List Char) (s : List Char) :
    (RE.seq (strRE pat) reDirTail).test s
      ↔ ∃ u x c v, s = u ++ pat ++ x ++ c :: 't' :: 's' :: v := by
  constructor
  · rintro ⟨u, v, w, rfl, hm⟩
    rcases hm with ⟨v1, v2, rfl, hv1, hv2⟩
    rcases hv2 with ⟨x, v3, rfl, hx, hv3⟩
    rcases hv3 with ⟨d, v4, rfl, hd, hv4⟩
    rcases hd with ⟨c, rfl⟩
    rw [(strRE_matches _ _).mp hv1, (strRE_matches _ _).mp hv4]
    refine ⟨u, x, c, w, ?_⟩
    simp [strL, List.append_assoc]
  · rintro ⟨u, x, c, v, rfl⟩
    refine ⟨u, pat ++ x ++ [c] ++ strL "ts", v, ?_, ?_⟩
    · simp [strL, List.append_assoc]
    · refine ⟨pat, x ++ [c] ++ strL "ts", by simp [List.append_assoc],
        (strRE_matches _ _).mpr rfl, ?_⟩
      refine ⟨x, [c] ++ strL "ts", by simp [List.append_assoc],
        starDot_matches x, ?_⟩
      exact ⟨[c], strL "ts", rfl, ⟨c, rfl⟩, (strRE_matches _ _).mpr rfl⟩

/-- Characterization of a `pat` + `.*` rule's test: `pat` occurs in `s`. -/
theorem testStarTail_iff (pat : List Char) (s : List Char) :
    (RE.seq (strRE pat) (RE.star RE.dot)).test s
      ↔ ∃ u v, s = u ++ pat ++ v := by
  constructor
  · rintro ⟨u, v, w, rfl, hm⟩
    rcases hm with ⟨v1, v2, rfl, hv1, hv2⟩
    rw [(strRE_matches _ _).mp hv1]
    exact ⟨u, v2 ++ w, by simp [List.append_assoc]⟩
  · rintro ⟨u, v, rfl⟩
    exact ⟨u, pat ++ v, [], by simp [List.append_assoc],
      pat, v, rfl, (strRE_matches _ _).mpr rfl, starDot_matches v⟩

/-! ## String occurrence lemmas -/

/-- Splitting at an occurrence of `c` when the first block is `c`-free:
either the occurrence is exactly the first one, or it lies further right. -/
theorem append_cons_cases (c : Char) :
    ∀ (a T u v : List Char), c ∉ a → a ++ c :: T = u ++ c :: v →
      (u = a ∧ v = T) ∨ ∃ w, u = a ++ c :: w ∧ T = w ++ c :: v := by
  intro a
  induction a with
  | nil =>
      intro T u v _ h
      rcases u with _ | ⟨e, u'⟩
      · exact Or.inl ⟨rfl, ((List.cons.inj h).2).symm ▸ rfl⟩
      · have h1 := List.cons.inj h
        exact Or.inr ⟨u', by simp [← h1.1], h1.2⟩
  | cons e a' ih =>
      intro T u v hc h
      rcases u with _ | ⟨e', u'⟩
      · have h1 := List.cons.inj h
        rw [h1.1] at hc
        exact absurd (List.mem_cons_self c a') hc
      · have h1 := List.cons.inj h
        rcases ih T u' v (fun hm => hc (List.mem_cons_of_mem e hm)) h1.2 with
          ⟨hu, hv⟩ | ⟨w, hu, hT⟩
        · exact Or.inl ⟨by simp [hu, ← h1.1], hv⟩
        · exact Or.inr ⟨w, by simp [hu, ← h1.1], hT⟩

/-- A slash occurrence in a join of slash-free segments splits the segment
list. -/
theorem slash_split :
    ∀ segs : List (List Char), (∀ x ∈ segs, '/' ∉ x) →
      ∀ u v : List Char, joinSegs segs = u ++ '/' :: v →
        ∃ l r, l ≠ [] ∧ r ≠ [] ∧ segs = l ++ r
          ∧ u = joinSegs l ∧ v = joinSegs r := by
  intro segs
  induction segs with
  | nil =>
      intro _ u v h
      rw [joinSegs] at h
      rcases u with _ | ⟨e, u'⟩ <;> simp_all
  | cons a rest ih =>
      intro hfree u v h
      rcases rest with _ | ⟨b, rest'⟩
      · rw [joinSegs] at h
        have hmem : '/' ∈ a := by
          rw [h]
          exact List.mem_append.mpr (Or.inr (List.mem_cons_self '/' v))
        exact absurd hmem (hfree a (List.mem_cons_self a []))
      · rw [joinSegs] at h
        rcases append_cons_cases '/' a (joinSegs (b :: rest')) u v
          (hfree a (List.mem_cons_self a (b :: rest'))) h with
          ⟨hu, hv⟩ | ⟨w, hu, hT⟩
        · refine ⟨[a], b :: rest', by simp, by simp, rfl, ?_, hv⟩
          rw [hu]
          rfl
        · rcases ih (fun x hx => hfree x (List.mem_cons_of_mem a hx)) w v hT with
            ⟨l, r, hlne, hrne, hsegs, hw, hv⟩
          refine ⟨a :: l, r, by simp, hrne, by simp [hsegs], ?_, hv⟩
          rcases l with _ | ⟨l0, l'⟩
          · exact absurd rfl hlne
          · rw [joinSegs, hu, hw]

/-- The non-trivial splits of a three-element list. -/
theorem split3 {α : Type} (a b c : α) (l r : List α)
    (h : [a, b, c] = l ++ r) (hl : l ≠ []) (hr : r ≠ []) :
    (l = [a] ∧ r = [b, c]) ∨ (l = [a, b] ∧ r = [c]) := by
  rcases l with _ | ⟨x, _ | ⟨y, _ | ⟨z, l'⟩⟩⟩ <;> simp_all

/-- The non-trivial splits of a four-element list. -/
theorem split4 {α : Type} (a b c d : α) (l r : List α)
    (h : [a, b, c, d] = l ++ r) (hl : l ≠ []) (hr : r ≠ []) :
    (l = [a] ∧ r = [b, c, d]) ∨ (l = [a, b] ∧ r = [c, d])
      ∨ (l = [a, b, c] ∧ r = [d]) := by
  rcases l with _ | ⟨x, _ | ⟨y, _ | ⟨z, _ | ⟨w, l'⟩⟩⟩⟩ <;> simp_all

/-- A final run is detected by `tailMatch`. -/
theorem tailMatch_of_append {p s u : List Char} (h : s = u ++ p) :
    tailMatch p s = true := by
  subst h
  simp [tailMatch]

/-- An initial run is detected by `leadMatch`. -/
theorem leadMatch_of_append {p s v : List Char} (h : s = p ++ v) :
    leadMatch p s = true := by
  subst h
  simp [leadMatch]

/-- A contiguous occurrence is detected by `hasSub`. -/
theorem hasSub_of_parts {p : List Char} :
    ∀ {u s v : List Char}, s = u ++ p ++ v → hasSub p s = true := by
  intro u
  induction u with
  | nil =>
      intro s v h
      rcases s with _ | ⟨e, s'⟩
      · rw [hasSub]
        exact leadMatch_of_append (by simpa using h)
      · rw [hasSub, Bool.or_eq_true]
        exact Or.inl (leadMatch_of_append (by simpa using h))
  | cons e u' ih =>
      intro s v h
      rcases s with _ | ⟨e', s'⟩
      · exact absurd (congrArg List.length h) (by simp)
      · rcases List.cons.inj h with ⟨rfl, h2⟩
        rw [hasSub, Bool.or_eq_true]
        exact Or.inr (ih h2)

/-- A rule whose regex begins with a literal in which `p` is followed by a
slash can only match strings where `p` occurs before a slash. -/
theorem test_strRE_preSlash (pat pre p q : List Char) (r : RE)
    (hpat : pat = pre ++ p ++ '/' :: q) {s : List Char}
    (h : (RE.seq (strRE pat) r).test s) : PreSlash p s := by
  rcases h with ⟨u, v, w, rfl, hm⟩
  rcases hm with ⟨v1, v2, rfl, hv1, hv2⟩
  rw [(strRE_matches _ _).mp hv1, hpat]
  exact ⟨u ++ pre, q ++ v2 ++ w, by simp [List.append_assoc]⟩

/-- The direct-file path `src/AnimalLib/<f>.ts` as a join of slash-free
segments. -/
theorem direct_path_segs (f : List Char) :
    strL "src/AnimalLib/" ++ f ++ strL ".ts"
      = joinSegs [strL "src", strL "AnimalLib", f ++ strL ".ts"] := rfl

/-- The subdirectory path `src/AnimalLib/<dir>/<g>.ts` as a join of slash-free
segments. -/
theorem subdir_path_segs (dir g : List Char) :
    strL "src/AnimalLib/" ++ dir ++ '/' :: (g ++ strL ".ts")
      = joinSegs [strL "src", strL "AnimalLib", dir, g ++ strL ".ts"] := rfl

/-- The segments of the direct-file path are slash-free. -/
theorem direct_path_free {f : List Char} (hf : ∀ c ∈ f, c ≠ '/') :
    ∀ x ∈ [strL "src", strL "AnimalLib", f ++ strL ".ts"], '/' ∉ x := by
  intro x hx
  simp only [List.mem_cons, List.not_mem_nil, or_false] at hx
  rcases hx with rfl | rfl | rfl
  · decide
  · decide
  · intro hm
    rcases List.mem_append.mp hm with hm | hm
    · exact hf '/' hm rfl
    · exact absurd hm (by decide)

/-- The segments of the subdirectory path are slash-free. -/
theorem subdir_path_free {dir g : List Char} (hdir : ∀ c ∈ dir, c ≠ '/')
    (hg : ∀ c ∈ g, c ≠ '/') :
    ∀ x ∈ [strL "src", strL "AnimalLib", dir, g ++ strL ".ts"], '/' ∉ x := by
  intro x hx
  simp only [List.mem_cons, List.not_mem_nil, or_false] at hx
  rcases hx with rfl | rfl | rfl | rfl
  · decide
  · decide
  · exact fun hm => hdir '/' hm rfl
  · intro hm
    rcases List.mem_append.mp hm with hm | hm
    · exact hg '/' hm rfl
    · exact absurd hm (by decide)

/-- No pre-slash occurrence of `p` exists in a direct-file path when `p` ends
neither `src` nor `src/AnimalLib`. -/
theorem noPreSlash_direct (p f : List Char) (hf : ∀ c ∈ f, c ≠ '/')
    (h1 : tailMatch p (strL "src") = false)
    (h2 : tailMatch p (strL "src/AnimalLib") = false) :
    ¬ PreSlash p (strL "src/AnimalLib/" ++ f ++ strL ".ts") := by
  rintro ⟨u, v, heq⟩
  have heq' : joinSegs [strL "src", strL "AnimalLib", f ++ strL ".ts"]
      = (u ++ p) ++ '/' :: v := by
    rw [← direct_path_segs, heq, List.append_assoc]
  rcases slash_split _ (direct_path_free hf) _ _ heq' with
    ⟨l, r, hlne, hrne, hsegs, hu, _⟩
  rcases split3 _ _ _ _ _ hsegs hlne hrne with ⟨hl, _⟩ | ⟨hl, _⟩
  · subst hl
    exact absurd (tailMatch_of_append (show strL "src" = u ++ p from hu.symm))
      (by simp [h1])
  · subst hl
    have : strL "src/AnimalLib" = u ++ p := by
      rw [hu]
      rfl
    exact absurd (tailMatch_of_append this) (by simp [h2])

/-- No pre-slash occurrence of `p` exists in a subdirectory path when `p`
ends none of `src`, `src/AnimalLib`, `<dir>` and does not itself end in
`<dir>`. -/
theorem noPreSlash_subdir (p dir g : List Char)
    (hdir : ∀ c ∈ dir, c ≠ '/') (hg : ∀ c ∈ g, c ≠ '/')
    (h1 : tailMatch p (strL "src") = false)
    (h2 : tailMatch p (strL "src/AnimalLib") = false)
    (h3 : tailMatch p dir = false)
    (h4 : tailMatch dir p = false) :
    ¬ PreSlash p (strL "src/AnimalLib/" ++ dir ++ '/' :: (g ++ strL ".ts")) := by
  rintro ⟨u, v, heq⟩
  have heq' : joinSegs [strL "src", strL "AnimalLib", dir, g ++ strL ".ts"]
      = (u ++ p) ++ '/' :: v := by
    rw [← subdir_path_segs, heq, List.append_assoc]
  rcases slash_split _ (subdir_path_free hdir hg) _ _ heq' with
    ⟨l, r, hlne, hrne, hsegs, hu, _⟩
  rcases split4 _ _ _ _ _ _ hsegs hlne hrne with ⟨hl, _⟩ | ⟨hl, _⟩ | ⟨hl, _⟩
  · subst hl
    exact absurd (tailMatch_of_append (show strL "src" = u ++ p from hu.symm))
      (by simp [h1])
  · subst hl
    have : strL "src/AnimalLib" = u ++ p := by
      rw [hu]
      rfl
    exact absurd (tailMatch_of_append this) (by simp [h2])
  · subst hl
    have hup : u ++ p = strL "src/AnimalLib/" ++ dir := by
      rw [hu]
      rfl
    rcases List.append_eq_append_iff.mp hup with ⟨x, _, hx2⟩ | ⟨y, _, hy2⟩
    · exact absurd (tailMatch_of_append hx2) (by simp [h4])
    · exact absurd (tailMatch_of_append hy2) (by simp [h3])

/-- The AnimalLib rule does not match a subdirectory path
`src/AnimalLib/<dir>/<g>.ts` when the file name `g` does not begin with `ts`
(and `dir` is one of the animal subdirectories: slash-free, without an
occurrence of `ts`, unrelated to the segment `AnimalLib`). -/
theorem testA_subdir_false (dir g : List Char)
    (hdir : ∀ c ∈ dir, c ≠ '/') (hg : ∀ c ∈ g, c ≠ '/')
    (hgne : g ≠ []) (hts : leadMatch (strL "ts") g = false)
    (hsub : hasSub (strL "ts") dir = false)
    (h3 : tailMatch dir (strL "AnimalLib") = false)
    (h4 : tailMatch (strL "AnimalLib") dir = false) :
    ¬ reAnimalLib.test
        (strL "src/AnimalLib/" ++ dir ++ '/' :: (g ++ strL ".ts")) := by
  intro h
  rcases (testA_iff _).mp h with ⟨u, x, c, v, heq, hxne, hxsf⟩
  have heq' : joinSegs [strL "src", strL "AnimalLib", dir, g ++ strL ".ts"]
      = (u ++ strL "AnimalLib") ++ '/' :: (x ++ c :: 't' :: 's' :: v) := by
    rw [← subdir_path_segs, heq]
    simp [strL, List.append_assoc]
  rcases slash_split _ (subdir_path_free hdir hg) _ _ heq' with
    ⟨l, r, hlne, hrne, hsegs, hu, hv⟩
  rcases split4 _ _ _ _ _ _ hsegs hlne hrne with ⟨hl, hr⟩ | ⟨hl, hr⟩ | ⟨hl, hr⟩
  · subst hl
    have hlen := congrArg List.length hu
    have e1 : (strL "AnimalLib").length = 9 := rfl
    have e2 : (joinSegs [strL "src"]).length = 3 := rfl
    rw [List.length_append, e1, e2] at hlen
    omega
  · subst hr
    have hx : x ++ c :: 't' :: 's' :: v = dir ++ '/' :: (g ++ strL ".ts") := hv
    rcases List.append_eq_append_iff.mp hx with ⟨y, hy1, hy2⟩ | ⟨z, hz1, hz2⟩
    · rcases y with _ | ⟨e, y'⟩
      · obtain ⟨hc, hy3⟩ := List.cons.inj hy2
        rcases g with _ | ⟨e1, _ | ⟨e2, g'⟩⟩
        · exact hgne rfl
        · obtain ⟨h5, h6⟩ := List.cons.inj hy3
          obtain ⟨h7, _⟩ := List.cons.inj h6
          exact absurd h7 (by decide)
        · obtain ⟨h5, h6⟩ := List.cons.inj hy3
          obtain ⟨h7, _⟩ := List.cons.inj h6
          exact absurd (leadMatch_of_append
            (show e1 :: e2 :: g' = strL "ts" ++ g' by rw [← h5, ← h7]; rfl))
            (by simp [hts])
      · obtain ⟨hc, hy3⟩ := List.cons.inj hy2
        rcases y' with _ | ⟨e2, _ | ⟨e3, y''⟩⟩
        · obtain ⟨h5, _⟩ := List.cons.inj hy3
          exact absurd h5 (by decide)
        · obtain ⟨h5, h6⟩ := List.cons.inj hy3
          obtain ⟨h7, _⟩ := List.cons.inj h6
          exact absurd h7 (by decide)
        · obtain ⟨h5, h6⟩ := List.cons.inj hy3
          obtain ⟨h7, _⟩ := List.cons.inj h6
          have : dir = (x ++ [e]) ++ strL "ts" ++ y'' := by
            rw [hy1, ← h5, ← h7]
            simp [strL, List.append_assoc]
          exact absurd (hasSub_of_parts this) (by simp [hsub])
    · rcases z with _ | ⟨e, z'⟩
      · obtain ⟨hc, hz3⟩ := List.cons.inj hz2
        rcases g with _ | ⟨e1, _ | ⟨e2, g'⟩⟩
        · obtain ⟨h5, _⟩ := List.cons.inj hz3.symm
          exact absurd h5 (by decide)
        · obtain ⟨h5, h6⟩ := List.cons.inj hz3
          obtain ⟨h7, _⟩ := List.cons.inj h6
          exact absurd h7 (by decide)
        · obtain ⟨h5, h6⟩ := List.cons.inj hz3
          obtain ⟨h7, _⟩ := List.cons.inj h6
          exact absurd (leadMatch_of_append
            (show e1 :: e2 :: g' = strL "ts" ++ g' by rw [h5, h7]; rfl))
            (by simp [hts])
      · obtain ⟨he, _⟩ := List.cons.inj hz2
        have : '/' ∈ x := by
          rw [hz1, ← he]
          exact List.mem_append.mpr (Or.inr (List.mem_cons_self '/' z'))
        exact hxsf '/' this rfl
  · subst hl
    have hup : u ++ strL "AnimalLib" = strL "src/AnimalLib/" ++ dir := by
      rw [hu]
      rfl
    rcases List.append_eq_append_iff.mp hup with ⟨y, _, hy2⟩ | ⟨z, _, hz2⟩
    · exact absurd (tailMatch_of_append hy2) (by simp [h3])
    · exact absurd (tailMatch_of_append hz2) (by simp [h4])

/-- The AnimalLib rule matches every direct file `src/AnimalLib/<f>.ts`. -/
theorem testA_direct_true (f : List Char) (hne : f ≠ [])
    (hf : ∀ c ∈ f, c ≠ '/') :
    reAnimalLib.test (strL "src/AnimalLib/" ++ f ++ strL ".ts") :=
  (testA_iff _).mpr ⟨strL "src/", f, '.', [], rfl, hne, hf⟩

/-- A `pat`+`.*.ts` rule matches `<u0><pat><g>.ts`. -/
theorem testDirTail_true (pat u0 g : List Char) :
    (RE.seq (strRE pat) reDirTail).test (u0 ++ pat ++ g ++ strL ".ts") :=
  (testDirTail_iff pat _).mpr ⟨u0, g, '.', [], by simp [strL, List.append_assoc]⟩

/-- On a direct file `src/AnimalLib/<f>.ts` exactly the AnimalLib rule
matches, and first-match-wins assigns the chunk `AnimalLib`. -/
theorem direct_only (f : List Char) (hne : f ≠ []) (hf : ∀ c ∈ f, c ≠ '/') :
    (∀ gr ∈ cacheGroups,
        RE.test gr.2 (strL "src/AnimalLib/" ++ f ++ strL ".ts")
          ↔ gr.1 = "AnimalLib")
    ∧ AssignedChunk (strL "src/AnimalLib/" ++ f ++ strL ".ts") "AnimalLib" := by
  have hA : reAnimalLib.test (strL "src/AnimalLib/" ++ f ++ strL ".ts") :=
    testA_direct_true f hne hf
  have hM : ¬ reMammals.test (strL "src/AnimalLib/" ++ f ++ strL ".ts") :=
    fun h => noPreSlash_direct (strL "Mammals") f hf (by decide) (by decide)
      (test_strRE_preSlash (strL "AnimalLib/Mammals/") (strL "AnimalLib/")
        (strL "Mammals") [] reDirTail rfl h)
  have hR : ¬ reReptiles.test (strL "src/AnimalLib/" ++ f ++ strL ".ts") :=
    fun h => noPreSlash_direct (strL "Reptiles") f hf (by decide) (by decide)
      (test_strRE_preSlash (strL "AnimalLib/Reptiles/") (strL "AnimalLib/")
        (strL "Reptiles") [] reDirTail rfl h)
  have hB : ¬ reBirds.test (strL "src/AnimalLib/" ++ f ++ strL ".ts") :=
    fun h => noPreSlash_direct (strL "Birds") f hf (by decide) (by decide)
      (test_strRE_preSlash (strL "AnimalLib/Birds/") (strL "AnimalLib/")
        (strL "Birds") [] reDirTail rfl h)
  have hC : ¬ reCompanyLib.test (strL "src/AnimalLib/" ++ f ++ strL ".ts") :=
    fun h => noPreSlash_direct (strL "CompanyLib") f hf (by decide) (by decide)
      (test_strRE_preSlash (strL "CompanyLib/") [] (strL "CompanyLib") []
        reDirTail rfl h)
  have hP : ¬ reProductLib.test (strL "src/AnimalLib/" ++ f ++ strL ".ts") :=
    fun h => noPreSlash_direct (strL "ProductLib") f hf (by decide) (by decide)
      (test_strRE_preSlash (strL "ProductLib/") [] (strL "ProductLib") []
        reDirTail rfl h)
  have hJ : ¬ reJquery.test (strL "src/AnimalLib/" ++ f ++ strL ".ts") :=
    fun h => noPreSlash_direct (strL "node_modules") f hf (by decide) (by decide)
      (test_strRE_preSlash (strL "node_modules/jquery") []
        (strL "node_modules") (strL "jquery") (RE.star RE.dot) rfl h)
  have hT : ¬ reTsCollections.test (strL "src/AnimalLib/" ++ f ++ strL ".ts") :=
    fun h => noPreSlash_direct (strL "node_modules") f hf (by decide) (by decide)
      (test_strRE_preSlash (strL "node_modules/typescript-collections") []
        (strL "node_modules") (strL "typescript-collections")
        (RE.star RE.dot) rfl h)
  constructor
  · intro gr hgr
    simp only [cacheGroups, List.mem_cons, List.not_mem_nil, or_false] at hgr
    rcases hgr with rfl | rfl | rfl | rfl | rfl | rfl | rfl | rfl
    · exact iff_of_true hA rfl
    · exact iff_of_false hM (by decide)
    · exact iff_of_false hR (by decide)
    · exact iff_of_false hB (by decide)
    · exact iff_of_false hC (by decide)
    · exact iff_of_false hP (by decide)
    · exact iff_of_false hJ (by decide)
    · exact iff_of_false hT (by decide)
  · exact FirstMatch.head hA

/-- On `src/AnimalLib/Mammals/<g>.ts` with `g` not starting with `ts`,
exactly the Mammals rule matches and the chunk `AnimalLib-Mammals` is
assigned. -/
theorem mammals_only (g : List Char) (hne : g ≠ []) (hg : ∀ c ∈ g, c ≠ '/')
    (hts : leadMatch (strL "ts") g = false) :
    (∀ gr ∈ cacheGroups,
        RE.test gr.2
            (strL "src/AnimalLib/" ++ strL "Mammals" ++ '/' :: (g ++ strL ".ts"))
          ↔ gr.1 = "AnimalLib-Mammals")
    ∧ AssignedChunk
        (strL "src/AnimalLib/" ++ strL "Mammals" ++ '/' :: (g ++ strL ".ts"))
        "AnimalLib-Mammals" := by
  have hdir : ∀ c ∈ strL "Mammals", c ≠ '/' := by decide
  have hA : ¬ reAnimalLib.test
      (strL "src/AnimalLib/" ++ strL "Mammals" ++ '/' :: (g ++ strL ".ts")) :=
    testA_subdir_false (strL "Mammals") g hdir hg hne hts (by decide)
      (by decide) (by decide)
  have hM : reMammals.test
      (strL "src/AnimalLib/" ++ strL "Mammals" ++ '/' :: (g ++ strL ".ts")) :=
    testDirTail_true (strL "AnimalLib/Mammals/") (strL "src/") g
  have hR : ¬ reReptiles.test
      (strL "src/AnimalLib/" ++ strL "Mammals" ++ '/' :: (g ++ strL ".ts")) :=
    fun h => noPreSlash_subdir (strL "Reptiles") (strL "Mammals") g hdir hg
      (by decide) (by decide) (by decide) (by decide)
      (test_strRE_preSlash (strL "AnimalLib/Reptiles/") (strL "AnimalLib/")
        (strL "Reptiles") [] reDirTail rfl h)
  have hB : ¬ reBirds.test
      (strL "src/AnimalLib/" ++ strL "Mammals" ++ '/' :: (g ++ strL ".ts")) :=
    fun h => noPreSlash_subdir (strL "Birds") (strL "Mammals") g hdir hg
      (by decide) (by decide) (by decide) (by decide)
      (test_strRE_preSlash (strL "AnimalLib/Birds/") (strL "AnimalLib/")
        (strL "Birds") [] reDirTail rfl h)
  have hC : ¬ reCompanyLib.test
      (strL "src/AnimalLib/" ++ strL "Mammals" ++ '/' :: (g ++ strL ".ts")) :=
    fun h => noPreSlash_subdir (strL "CompanyLib") (strL "Mammals") g hdir hg
      (by decide) (by decide) (by decide) (by decide)
      (test_strRE_preSlash (strL "CompanyLib/") [] (strL "CompanyLib") []
        reDirTail rfl h)
  have hP : ¬ reProductLib.test
      (strL "src/AnimalLib/" ++ strL "Mammals" ++ '/' :: (g ++ strL ".ts")) :=
    fun h => noPreSlash_subdir (strL "ProductLib") (strL "Mammals") g hdir hg
      (by decide) (by decide) (by decide) (by decide)
      (test_strRE_preSlash (strL "ProductLib/") [] (strL "ProductLib") []
        reDirTail rfl h)
  have hJ : ¬ reJquery.test
      (strL "src/AnimalLib/" ++ strL "Mammals" ++ '/' :: (g ++ strL ".ts")) :=
    fun h => noPreSlash_subdir (strL "node_modules") (strL "Mammals") g hdir hg
      (by decide) (by decide) (by decide) (by decide)
      (test_strRE_preSlash (strL "node_modules/jquery") []
        (strL "node_modules") (strL "jquery") (RE.star RE.dot) rfl h)
  have hT : ¬ reTsCollections.test
      (strL "src/AnimalLib/" ++ strL "Mammals" ++ '/' :: (g ++ strL ".ts")) :=
    fun h => noPreSlash_subdir (strL "node_modules") (strL "Mammals") g hdir hg
      (by decide) (by decide) (by decide) (by decide)
      (test_strRE_preSlash (strL "node_modules/typescript-collections") []
        (strL "node_modules") (strL "typescript-collections")
        (RE.star RE.dot) rfl h)
  constructor
  · intro gr hgr
    simp only [cacheGroups, List.mem_cons, List.not_mem_nil, or_false] at hgr
    rcases hgr with rfl | rfl | rfl | rfl | rfl | rfl | rfl | rfl
    · exact iff_of_false hA (by decide)
    · exact iff_of_true hM rfl
    · exact iff_of_false hR (by decide)
    · exact iff_of_false hB (by decide)
    · exact iff_of_false hC (by decide)
    · exact iff_of_false hP (by decide)
    · exact iff_of_false hJ (by decide)
    · exact iff_of_false hT (by decide)
  · exact FirstMatch.tail hA (FirstMatch.head hM)

/-- On `src/AnimalLib/Reptiles/<g>.ts` with `g` not starting with `ts`,
exactly the Reptiles rule matches and the chunk `AnimalLib-Reptiles` is
assigned. -/
theorem reptiles_only (g : List Char) (hne : g ≠ []) (hg : ∀ c ∈ g, c ≠ '/')
    (hts : leadMatch (strL "ts") g = false) :
    (∀ gr ∈ cacheGroups,
        RE.test gr.2
            (strL "src/AnimalLib/" ++ strL "Reptiles" ++ '/' :: (g ++ strL ".ts"))
          ↔ gr.1 = "AnimalLib-Reptiles")
    ∧ AssignedChunk
        (strL "src/AnimalLib/" ++ strL "Reptiles" ++ '/' :: (g ++ strL ".ts"))
        "AnimalLib-Reptiles" := by
  have hdir : ∀ c ∈ strL "Reptiles", c ≠ '/' := by decide
  have hA : ¬ reAnimalLib.test
      (strL "src/AnimalLib/" ++ strL "Reptiles" ++ '/' :: (g ++ strL ".ts")) :=
    testA_subdir_false (strL "Reptiles") g hdir hg hne hts (by decide)
      (by decide) (by decide)
  have hM : ¬ reMammals.test
      (strL "src/AnimalLib/" ++ strL "Reptiles" ++ '/' :: (g ++ strL ".ts")) :=
    fun h => noPreSlash_subdir (strL "Mammals") (strL "Reptiles") g hdir hg
      (by decide) (by decide) (by decide) (by decide)
      (test_strRE_preSlash (strL "AnimalLib/Mammals/") (strL "AnimalLib/")
        (strL "Mammals") [] reDirTail rfl h)
  have hR : reReptiles.test
      (strL "src/AnimalLib/" ++ strL "Reptiles" ++ '/' :: (g ++ strL ".ts")) :=
    testDirTail_true (strL "AnimalLib/Reptiles/") (strL "src/") g
  have hB : ¬ reBirds.test
      (strL "src/AnimalLib/" ++ strL "Reptiles" ++ '/' :: (g ++ strL ".ts")) :=
    fun h => noPreSlash_subdir (strL "Birds") (strL "Reptiles") g hdir hg
      (by decide) (by decide) (by decide) (by decide)
      (test_strRE_preSlash (strL "AnimalLib/Birds/") (strL "AnimalLib/")
        (strL "Birds") [] reDirTail rfl h)
  have hC : ¬ reCompanyLib.test
      (strL "src/AnimalLib/" ++ strL "Reptiles" ++ '/' :: (g ++ strL ".ts")) :=
    fun h => noPreSlash_subdir (strL "CompanyLib") (strL "Reptiles") g hdir hg
      (by decide) (by decide) (by decide) (by decide)
      (test_strRE_preSlash (strL "CompanyLib/") [] (strL "CompanyLib") []
        reDirTail rfl h)
  have hP : ¬ reProductLib.test
      (strL "src/AnimalLib/" ++ strL "Reptiles" ++ '/' :: (g ++ strL ".ts")) :=
    fun h => noPreSlash_subdir (strL "ProductLib") (strL "Reptiles") g hdir hg
      (by decide) (by decide) (by decide) (by decide)
      (test_strRE_preSlash (strL "ProductLib/") [] (strL "ProductLib") []
        reDirTail rfl h)
  have hJ : ¬ reJquery.test
      (strL "src/AnimalLib/" ++ strL "Reptiles" ++ '/' :: (g ++ strL ".ts")) :=
    fun h => noPreSlash_subdir (strL "node_modules") (strL "Reptiles") g hdir hg
      (by decide) (by decide) (by decide) (by decide)
      (test_strRE_preSlash (strL "node_modules/jquery") []
        (strL "node_modules") (strL "jquery") (RE.star RE.dot) rfl h)
  have hT : ¬ reTsCollections.test
      (strL "src/AnimalLib/" ++ strL "Reptiles" ++ '/' :: (g ++ strL ".ts")) :=
    fun h => noPreSlash_subdir (strL "node_modules") (strL "Reptiles") g hdir hg
      (by decide) (by decide) (by decide) (by decide)
      (test_strRE_preSlash (strL "node_modules/typescript-collections") []
        (strL "node_modules") (strL "typescript-collections")
        (RE.star RE.dot) rfl h)
  constructor
  · intro gr hgr
    simp only [cacheGroups, List.mem_cons, List.not_mem_nil, or_false] at hgr
    rcases hgr with rfl | rfl | rfl | rfl | rfl | rfl | rfl | rfl
    · exact iff_of_false hA (by decide)
    · exact iff_of_false hM (by decide)
    · exact iff_of_true hR rfl
    · exact iff_of_false hB (by decide)
    · exact iff_of_false hC (by decide)
    · exact iff_of_false hP (by decide)
    · exact iff_of_false hJ (by decide)
    · exact iff_of_false hT (by decide)
  · exact FirstMatch.tail hA (FirstMatch.tail hM (FirstMatch.head hR))

/-- On `src/AnimalLib/Birds/<g>.ts` with `g` not starting with `ts`, exactly
the Birds rule matches and the chunk `AnimalLib-Birds` is assigned. -/
theorem birds_only (g : List Char) (hne : g ≠ []) (hg : ∀ c ∈ g, c ≠ '/')
    (hts : leadMatch (strL "ts") g = false) :
    (∀ gr ∈ cacheGroups,
        RE.test gr.2
            (strL "src/AnimalLib/" ++ strL "Birds" ++ '/' :: (g ++ strL ".ts"))
          ↔ gr.1 = "AnimalLib-Birds")
    ∧ AssignedChunk
        (strL "src/AnimalLib/" ++ strL "Birds" ++ '/' :: (g ++ strL ".ts"))
        "AnimalLib-Birds" := by
  have hdir : ∀ c ∈ strL "Birds", c ≠ '/' := by decide
  have hA : ¬ reAnimalLib.test
      (strL "src/AnimalLib/" ++ strL "Birds" ++ '/' :: (g ++ strL ".ts")) :=
    testA_subdir_false (strL "Birds") g hdir hg hne hts (by decide)
      (by decide) (by decide)
  have hM : ¬ reMammals.test
      (strL "src/AnimalLib/" ++ strL "Birds" ++ '/' :: (g ++ strL ".ts")) :=
    fun h => noPreSlash_subdir (strL "Mammals") (strL "Birds") g hdir hg
      (by decide) (by decide) (by decide) (by decide)
      (test_strRE_preSlash (strL "AnimalLib/Mammals/") (strL "AnimalLib/")
        (strL "Mammals") [] reDirTail rfl h)
  have hR : ¬ reReptiles.test
      (strL "src/AnimalLib/" ++ strL "Birds" ++ '/' :: (g ++ strL ".ts")) :=
    fun h => noPreSlash_subdir (strL "Reptiles") (strL "Birds") g hdir hg
      (by decide) (by decide) (by decide) (by decide)
      (test_strRE_preSlash (strL "AnimalLib/Reptiles/") (strL "AnimalLib/")
        (strL "Reptiles") [] reDirTail rfl h)
  have hB : reBirds.test
      (strL "src/AnimalLib/" ++ strL "Birds" ++ '/' :: (g ++ strL ".ts")) :=
    testDirTail_true (strL "AnimalLib/Birds/") (strL "src/") g
  have hC : ¬ reCompanyLib.test
      (strL "src/AnimalLib/" ++ strL "Birds" ++ '/' :: (g ++ strL ".ts")) :=
    fun h => noPreSlash_subdir (strL "CompanyLib") (strL "Birds") g hdir hg
      (by decide) (by decide) (by decide) (by decide)
      (test_strRE_preSlash (strL "CompanyLib/") [] (strL "CompanyLib") []
        reDirTail rfl h)
  have hP : ¬ reProductLib.test
      (strL "src/AnimalLib/" ++ strL "Birds" ++ '/' :: (g ++ strL ".ts")) :=
    fun h => noPreSlash_subdir (strL "ProductLib") (strL "Birds") g hdir hg
      (by decide) (by decide) (by decide) (by decide)
      (test_strRE_preSlash (strL "ProductLib/") [] (strL "ProductLib") []
        reDirTail rfl h)
  have hJ : ¬ reJquery.test
      (strL "src/AnimalLib/" ++ strL "Birds" ++ '/' :: (g ++ strL ".ts")) :=
    fun h => noPreSlash_subdir (strL "node_modules") (strL "Birds") g hdir hg
      (by decide) (by decide) (by decide) (by decide)
      (test_strRE_preSlash (strL "node_modules/jquery") []
        (strL "node_modules") (strL "jquery") (RE.star RE.dot) rfl h)
  have hT : ¬ reTsCollections.test
      (strL "src/AnimalLib/" ++ strL "Birds" ++ '/' :: (g ++ strL ".ts")) :=
    fun h => noPreSlash_subdir (strL "node_modules") (strL "Birds") g hdir hg
      (by decide) (by decide) (by decide) (by decide)
      (test_strRE_preSlash (strL "node_modules/typescript-collections") []
        (strL "node_modules") (strL "typescript-collections")
        (RE.star RE.dot) rfl h)
  constructor
  · intro gr hgr
    simp only [cacheGroups, List.mem_cons, List.not_mem_nil, or_false] at hgr
    rcases hgr with rfl | rfl | rfl | rfl | rfl | rfl | rfl | rfl
    · exact iff_of_false hA (by decide)
    · exact iff_of_false hM (by decide)
    · exact iff_of_false hR (by decide)
    · exact iff_of_true hB rfl
    · exact iff_of_false hC (by decide)
    · exact iff_of_false hP (by decide)
    · exact iff_of_false hJ (by decide)
    · exact iff_of_false hT (by decide)
  · exact FirstMatch.tail hA (FirstMatch.tail hM
      (FirstMatch.tail hR (FirstMatch.head hB)))

/-! ## Claim theorems -/

/-- C5 counterexample: the module path `src/AnimalLib/Mammals/tsetse.ts` lies
under `AnimalLib/Mammals` yet matches the AnimalLib rule too (its regex
`AnimalLib\/([^\/]+.ts)` lets the `.` consume the slash and finds the `ts` at
the start of the file name), and first-match-wins assigns it to chunk
`AnimalLib`, not `AnimalLib-Mammals`. -/
theorem chunk_assignment_cex :
    reAnimalLib.test (strL "src/AnimalLib/Mammals/tsetse.ts")
    ∧ reMammals.test (strL "src/AnimalLib/Mammals/tsetse.ts")
    ∧ AssignedChunk (strL "src/AnimalLib/Mammals/tsetse.ts") "AnimalLib"
    ∧ ¬ AssignedChunk (strL "src/AnimalLib/Mammals/tsetse.ts")
        "AnimalLib-Mammals" := by
  have hA : reAnimalLib.test (strL "src/AnimalLib/Mammals/tsetse.ts") :=
    (testA_iff _).mpr ⟨strL "src/", strL "Mammals", '/', strL "etse.ts",
      by decide, by decide, by decide⟩
  have hM : reMammals.test (strL "src/AnimalLib/Mammals/tsetse.ts") :=
    testDirTail_true (strL "AnimalLib/Mammals/") (strL "src/") (strL "tsetse")
  refine ⟨hA, hM, FirstMatch.head hA, ?_⟩
  intro h
  have hcontra := FirstMatch.unique h (FirstMatch.head hA)
  exact absurd hcontra (by decide)

/-- C5 (amended): under the ordered cacheGroups rules, a `.ts` module directly
under `AnimalLib` matches only the AnimalLib rule and is assigned chunk
`AnimalLib`; a `.ts` module directly under `AnimalLib/Mammals`,
`AnimalLib/Reptiles` or `AnimalLib/Birds` whose file name does not begin with
`ts` matches only the corresponding subdirectory rule and is assigned the
corresponding chunk. -/
theorem chunk_assignment_amended :
    (∀ f : List Char, f ≠ [] → (∀ c ∈ f, c ≠ '/') →
        (∀ gr ∈ cacheGroups,
            RE.test gr.2 (strL "src/AnimalLib/" ++ f ++ strL ".ts")
              ↔ gr.1 = "AnimalLib")
        ∧ AssignedChunk (strL "src/AnimalLib/" ++ f ++ strL ".ts") "AnimalLib")
    ∧ (∀ g : List Char, g ≠ [] → (∀ c ∈ g, c ≠ '/') →
        leadMatch (strL "ts") g = false →
        (∀ gr ∈ cacheGroups,
            RE.test gr.2 (strL "src/AnimalLib/Mammals/" ++ g ++ strL ".ts")
              ↔ gr.1 = "AnimalLib-Mammals")
        ∧ AssignedChunk (strL "src/AnimalLib/Mammals/" ++ g ++ strL ".ts")
            "AnimalLib-Mammals")
    ∧ (∀ g : List Char, g ≠ [] → (∀ c ∈ g, c ≠ '/') →
        leadMatch (strL "ts") g = false →
        (∀ gr ∈ cacheGroups,
            RE.test gr.2 (strL "src/AnimalLib/Reptiles/" ++ g ++ strL ".ts")
              ↔ gr.1 = "AnimalLib-Reptiles")
        ∧ AssignedChunk (strL "src/AnimalLib/Reptiles/" ++ g ++ strL ".ts")
            "AnimalLib-Reptiles")
    ∧ (∀ g : List Char, g ≠ [] → (∀ c ∈ g, c ≠ '/') →
        leadMatch (strL "ts") g = false →
        (∀ gr ∈ cacheGroups,
            RE.test gr.2 (strL "src/AnimalLib/Birds/" ++ g ++ strL ".ts")
              ↔ gr.1 = "AnimalLib-Birds")
        ∧ AssignedChunk (strL "src/AnimalLib/Birds/" ++ g ++ strL ".ts")
            "AnimalLib-Birds") := by
  refine ⟨?_, ?_, ?_, ?_⟩
  · intro f hne hf
    exact direct_only f hne hf
  · intro g hne hg hts
    exact mammals_only g hne hg hts
  · intro g hne hg hts
    exact reptiles_only g hne hg hts
  · intro g hne hg hts
    exact birds_only g hne hg hts

/-- Witness for C5 (amended) at the repository's own modules. -/
theorem chunk_assignment_amended_witness :
    AssignedChunk (strL "src/AnimalLib/" ++ strL "Animal" ++ strL ".ts")
      "AnimalLib"
    ∧ AssignedChunk (strL "src/AnimalLib/Mammals/" ++ strL "Dog" ++ strL ".ts")
      "AnimalLib-Mammals" :=
  ⟨(chunk_assignment_amended.1 (strL "Animal") (by decide) (by decide)).2,
   (chunk_assignment_amended.2.1 (strL "Dog") (by decide) (by decide)
     (by decide)).2⟩

/-- C9: constructing a Price raises an error exactly when the value is
non-positive; for every positive value construction succeeds and `getValue`
returns that value. -/
theorem price_nonpositive_rejected (value : Rat) (currency : Currency) :
    ((∃ msg, Price.make value currency = Except.error msg) ↔ value ≤ 0)
    ∧ (0 < value →
        ∃ p, Price.make value currency = Except.ok p ∧ p.getValue = value) := by
  constructor
  · constructor
    · rintro ⟨msg, hmsg⟩
      by_contra h
      simp [Price.make, h] at hmsg
    · intro h
      exact ⟨"Argument value cannot be less than zero", by simp [Price.make, h]⟩
  · intro h
    refine ⟨⟨value, currency⟩, ?_, rfl⟩
    simp [Price.make, not_le.mpr h]

/-- Witness for C9 at value 10 USD. -/
theorem price_nonpositive_rejected_witness :
    0 < (10 : Rat)
    ∧ ∃ p, Price.make 10 Currency.USD = Except.ok p ∧ p.getValue = 10 :=
  ⟨by decide, (price_nonpositive_rejected 10 Currency.USD).2 (by decide)⟩

/-- C8: constructing a PhoneNumber raises whenever the trimmed country code is
empty, raises whenever the subscriber string is not numeric
(`isNaN(Number(s))`), and succeeds otherwise. -/
theorem phone_number_validation (countrycode phoneNumberString : String) :
    ((jsTrim countrycode).data = [] →
        ∃ msg, PhoneNumber.make countrycode phoneNumberString
          = Except.error msg)
    ∧ (jsIsNaNOfString phoneNumberString = true →
        ∃ msg, PhoneNumber.make countrycode phoneNumberString
          = Except.error msg)
    ∧ ((jsTrim countrycode).data ≠ [] →
        jsIsNaNOfString phoneNumberString = false →
        PhoneNumber.make countrycode phoneNumberString
          = Except.ok ⟨jsTrim countrycode, jsTrim phoneNumberString⟩) := by
  refine ⟨?_, ?_, ?_⟩
  · intro h
    refine ⟨"countryCode cannot be an empty string", ?_⟩
    simp [PhoneNumber.make, List.isEmpty_iff, h]
  · intro h
    by_cases hcc : (jsTrim countrycode).data = []
    · exact ⟨"countryCode cannot be an empty string",
        by simp [PhoneNumber.make, List.isEmpty_iff, hcc]⟩
    · exact ⟨"phoneNumberString must be a valid number as well",
        by simp [PhoneNumber.make, List.isEmpty_iff, hcc, h]⟩
  · intro h1 h2
    simp [PhoneNumber.make, List.isEmpty_iff, h1, h2]

/-- Witness for C8: a whitespace country code is rejected. -/
theorem phone_number_validation_witness :
    (jsTrim "  ").data = []
    ∧ ∃ msg, PhoneNumber.make "  " "123" = Except.error msg :=
  ⟨by decide, (phone_number_validation "  " "123").1 (by decide)⟩

/-- C10: the empty subscriber string is accepted (`Number("") = 0` is not
NaN), for every country code that is non-empty after trimming. -/
theorem phone_number_empty_subscriber_ok (countrycode : String)
    (h : (jsTrim countrycode).data ≠ []) :
    PhoneNumber.make countrycode "" = Except.ok ⟨jsTrim countrycode, ""⟩ := by
  have hnan : jsIsNaNOfString "" = false := by decide
  simp [PhoneNumber.make, List.isEmpty_iff, h, hnan]
  rfl

/-- Witness for C10 at country code "+91". -/
theorem phone_number_empty_subscriber_ok_witness :
    PhoneNumber.make "+91" "" = Except.ok ⟨jsTrim "+91", ""⟩ :=
  phone_number_empty_subscriber_ok "+91" (by decide)

/-- C2: `addItem` on a completed order throws and leaves the state unchanged;
on a live order a non-integer quantity gives `false` with the state
unchanged, and an integer quantity gives `true` and appends the line item. -/
theorem order_addItem_cases (o : Order) (p : Product) (q : Rat) :
    (o.isCompleted = true →
        o.addItem p q
          = (o, Except.error
              "Cannot add items to an order which already completed."))
    ∧ (o.isCompleted = false → (¬ ∃ z : ℤ, q = (z : Rat)) →
        o.addItem p q = (o, Except.ok false))
    ∧ (o.isCompleted = false → (∃ z : ℤ, q = (z : Rat)) →
        o.addItem p q
          = ({ o with items := o.items ++ [⟨p, q⟩] }, Except.ok true)) := by
  refine ⟨?_, ?_, ?_⟩
  · intro h
    simp [Order.addItem, h]
  · intro h hz
    have hne : q ≠ jsRound q := fun he =>
      hz ((jsRound_eq_self_iff q).mp he.symm)
    simp [Order.addItem, h, hne]
  · intro h hz
    have heq : q = jsRound q := ((jsRound_eq_self_iff q).mpr hz).symm
    simp [Order.addItem, h, ← heq]

/-- Witness for C2: adding to a purchased order throws. -/
theorem order_addItem_cases_witness :
    (Order.new 1).purchase.isCompleted = true
    ∧ (Order.new 1).purchase.addItem poloShirtL 1
        = ((Order.new 1).purchase,
           Except.error
             "Cannot add items to an order which already completed.") :=
  ⟨rfl, (order_addItem_cases (Order.new 1).purchase poloShirtL 1).1 rfl⟩

/-- C3 counterexample: the quantity check only enforces integrality, so the
negative integer -2 is accepted and stored, refuting "every stored quantity
is a positive integer". -/
theorem order_negative_quantity_cex :
    ((Order.new 1).addItem poloShirtL (-2)).2 = Except.ok true
    ∧ ((Order.new 1).addItem poloShirtL (-2)).1.items.map OrderItem.quantity
        = [(-2 : Rat)]
    ∧ ¬ (0 < (-2 : Rat)) :=
  ⟨rfl, rfl, by decide⟩

/-- C3 (amended): every line item stored in a reachable Order has an integer
quantity (positivity is not enforced by the code). -/
theorem order_items_integral (n : Nat) (ops : List OrderOp) :
    ∀ it ∈ ((Order.new n).run ops).items, ∃ z : ℤ, it.quantity = (z : Rat) := by
  suffices h : ∀ o : Order, (∀ it ∈ o.items, ∃ z : ℤ, it.quantity = (z : Rat)) →
      ∀ it ∈ (o.run ops).items, ∃ z : ℤ, it.quantity = (z : Rat) by
    exact h (Order.new n) (by simp [Order.new])
  induction ops with
  | nil =>
      intro o ho
      simpa [Order.run] using ho
  | cons op rest ih =>
      intro o ho
      have hstep : ∀ it ∈ (o.step op).items, ∃ z : ℤ, it.quantity = (z : Rat) := by
        cases op with
        | addItem p q =>
            by_cases hc : o.isCompleted
            · simpa [Order.step, Order.addItem, hc] using ho
            · by_cases hq : q = jsRound q
              · intro it hit
                rw [Order.step] at hit
                simp [Order.addItem, hc, ← hq] at hit
                rcases hit with hit | hit
                · exact ho it hit
                · rw [hit]
                  exact (jsRound_eq_self_iff q).mp hq.symm
              · have hne : q ≠ jsRound q := hq
                simpa [Order.step, Order.addItem, hc, hne] using ho
        | getTotal =>
            intro it hit
            rw [Order.step, getOrderTotal_items] at hit
            exact ho it hit
        | purchase =>
            intro it hit
            rw [Order.step, purchase_items] at hit
            exact ho it hit
      have : (o.run (op :: rest)) = ((o.step op).run rest) := by
        simp [Order.run]
      rw [this]
      exact ih (o.step op) hstep

/-- Witness for C3 (amended): the stored quantity 3 is an integer. -/
theorem order_items_integral_witness :
    (⟨poloShirtL, (3 : Rat)⟩ : OrderItem)
        ∈ ((Order.new 1).run [OrderOp.addItem poloShirtL 3]).items
    ∧ ∃ z : ℤ, (⟨poloShirtL, (3 : Rat)⟩ : OrderItem).quantity = (z : Rat) := by
  have hm : (⟨poloShirtL, (3 : Rat)⟩ : OrderItem)
      ∈ ((Order.new 1).run [OrderOp.addItem poloShirtL 3]).items := by decide
  exact ⟨hm, order_items_integral 1 [OrderOp.addItem poloShirtL 3] _ hm⟩

/-- C1: on a fresh cache the total is the sum of (unit price × quantity)
over the stored line items and is cached (also by `purchase`); once cached,
every further operation sequence leaves the value returned by
`getOrderTotal` unchanged. -/
theorem order_total_cached :
    (∀ o : Order, o.orderTotal = none →
        o.getOrderTotal.2 = lineItemsTotal o.items
        ∧ o.getOrderTotal.1
            = { o with orderTotal := some (lineItemsTotal o.items) })
    ∧ (∀ o : Order, o.orderTotal = none →
        o.purchase.orderTotal = some (lineItemsTotal o.items))
    ∧ (∀ (o : Order) (t : Rat), o.orderTotal = some t →
        ∀ ops : List OrderOp,
          (o.run ops).getOrderTotal.2 = t ∧ (o.run ops).orderTotal = some t) := by
  have hfold : ∀ items : List OrderItem,
      items.foldl (fun acc item => acc + item.getItemTotal) 0
        = lineItemsTotal items := fun items => by
    simpa using foldl_itemTotal items 0
  refine ⟨?_, ?_, ?_⟩
  · intro o h
    constructor <;> simp [Order.getOrderTotal, h, hfold]
  · intro o h
    simp [Order.purchase, Order.getOrderTotal, h, hfold]
  · intro o t h ops
    have hrun := run_preserves_total h ops
    exact ⟨by simp [Order.getOrderTotal, hrun], hrun⟩

/-- Witness for C1 at a fresh order. -/
theorem order_total_cached_witness :
    (Order.new 1).orderTotal = none
    ∧ (Order.new 1).getOrderTotal.2 = lineItemsTotal (Order.new 1).items :=
  ⟨rfl, (order_total_cached.1 (Order.new 1) rfl).1⟩

/-- C7: catalog lookup returns the unique product with the requested id, and
`undefined` when no product has that id. -/
theorem catalog_select_by_id (c : Catalog) (pid : Nat) :
    (∀ p ∈ c.productsList, p.getProductId = pid →
        (∀ q ∈ c.productsList, q.getProductId = pid → q = p) →
        c.selectProductFromCatalog pid = some p)
    ∧ ((∀ p ∈ c.productsList, p.getProductId ≠ pid) →
        c.selectProductFromCatalog pid = none) := by
  constructor
  · intro p hp hpid huniq
    exact find_first_unique c.productsList pid p hp hpid huniq
  · intro h
    apply List.find?_eq_none.mpr
    intro x hx
    simpa using h x hx

/-- Witness for C7 on the sample catalog. -/
theorem catalog_select_by_id_witness :
    poloShirtL ∈ sampleCatalog.productsList
    ∧ poloShirtL.getProductId = 1
    ∧ sampleCatalog.selectProductFromCatalog 1 = some poloShirtL := by
  refine ⟨by decide, rfl, ?_⟩
  exact (catalog_select_by_id sampleCatalog 1).1 poloShirtL (by decide) rfl
    (by decide)

/-- C4: a missing environment argument throws before any configuration is
returned, an unrecognized value throws, and every recognized
development/production value yields a configuration without throwing. -/
theorem webpack_env_fatal (e : Env) :
    (e = Env.undef →
        webpackConfig e
          = Except.error "ERROR: No environment option specified!")
    ∧ (e ≠ Env.undef → isDevEnv e = false → isProdEnv e = false →
        webpackConfig e
          = Except.error "ERROR: Invalid environment option specified!")
    ∧ ((isDevEnv e = true ∨ isProdEnv e = true) →
        ∃ c, webpackConfig e = Except.ok c) := by
  refine ⟨?_, ?_, ?_⟩
  · rintro rfl
    rfl
  · intro h1 h2 h3
    simp [webpackConfig, h1, h2, h3]
  · intro h
    have hne : e ≠ Env.undef := by
      rintro rfl
      simp [isDevEnv, isProdEnv] at h
    by_cases hd : isDevEnv e
    · refine ⟨{ baseConfig with devtool := some "inline-source-map", minimize := some false }, ?_⟩
      simp [webpackConfig, hne, hd]
    · have hp : isProdEnv e = true := by
        rcases h with h | h
        · exact absurd h (by simpa using hd)
        · exact h
      exact ⟨baseConfig, by simp [webpackConfig, hne, hd, hp]⟩

/-- Witness for C4 at the recognized value "prod". -/
theorem webpack_env_fatal_witness :
    (isDevEnv (Env.str "prod") = true ∨ isProdEnv (Env.str "prod") = true)
    ∧ ∃ c, webpackConfig (Env.str "prod") = Except.ok c :=
  ⟨Or.inr (by decide),
   (webpack_env_fatal (Env.str "prod")).2.2 (Or.inr (by decide))⟩

/-- C6: a value recognized as development gets `devtool = inline-source-map`
and `optimization.minimize = false`; a value that reaches and passes the
production test (i.e. is recognized as production and not as development,
which wins the branch order) gets the base configuration, which has no
devtool setting and does not disable minimization. -/
theorem webpack_dev_prod_profiles (e : Env) :
    (isDevEnv e = true →
        webpackConfig e
          = Except.ok { baseConfig with devtool := some "inline-source-map",
                                        minimize := some false })
    ∧ (isDevEnv e = false → isProdEnv e = true →
        webpackConfig e = Except.ok baseConfig
        ∧ baseConfig.devtool = none ∧ baseConfig.minimize = none) := by
  constructor
  · intro h
    have hne : e ≠ Env.undef := by
      rintro rfl
      simp [isDevEnv] at h
    simp [webpackConfig, hne, h]
  · intro h1 h2
    have hne : e ≠ Env.undef := by
      rintro rfl
      simp [isProdEnv] at h2
    exact ⟨by simp [webpackConfig, hne, h1, h2], rfl, rfl⟩

/-- Witness for C6 at the recognized value "dev". -/
theorem webpack_dev_prod_profiles_witness :
    isDevEnv (Env.str "dev") = true
    ∧ webpackConfig (Env.str "dev")
        = Except.ok { baseConfig with devtool := some "inline-source-map",
                                      minimize := some false } :=
  ⟨by decide, (webpack_dev_prod_profiles (Env.str "dev")).1 (by decide)⟩

end TsStarter
